import Mathlib

/-!
Shallow embedding of the calabi sources (`src/main.rs`, `src/manifold_markets.rs`,
`src/github_status.rs`) together with theorems checking the specification's
claims about them.  Machine strings are modelled as Lean `String`/`List Char`,
machine integers as `Nat` (all the arithmetic here is on small calendar values,
far from any overflow), fallible code as `Except`/`Option`, and the two
long-running loops as explicit step functions over small state types.
-/

/-- Calendar date as the code reads it from `chrono` (`today.month()`, `today.day()`). -/
structure Date where
  month : Nat
  day : Nat
deriving DecidableEq

/- ## String utilities (models of the Rust `str` operations used by the source) -/

/-- Model of a byte-wise prefix test on strings: `needle` begins `hay`. -/
def starts_with : List Char → List Char → Bool
  | [], _ => true
  | _ :: _, [] => false
  | c :: cs, d :: ds => c == d && starts_with cs ds

/-- Model of Rust substring containment: does `hay` contain `needle` as a
contiguous substring? -/
def has_sub : List Char → List Char → Bool
  | [], needle => starts_with needle []
  | c :: rest, needle => starts_with needle (c :: rest) || has_sub rest needle

/-- Model of Rust `s.contains(pat)`. -/
def contains_sub (s pat : String) : Bool :=
  has_sub s.toList pat.toList

/-- Model of Rust `s.to_lowercase()` (ASCII range, which is all the month-name
checks need). -/
def to_lowercase (s : String) : List Char :=
  s.toList.map Char.toLower

/- ## manifold_markets.rs: months and free-text date extraction -/

/-- `enum Month` from `manifold_markets.rs`. -/
inductive Month where
  | August
  | September
  | October
  | November
  | December
deriving DecidableEq

/-- `impl From<Month> for u32` from `manifold_markets.rs`. -/
def u32_from_month : Month → Nat
  | Month.August => 8
  | Month.September => 9
  | Month.October => 10
  | Month.November => 11
  | Month.December => 12

/-- `month_from_question` from `manifold_markets.rs`: lowercase the question and
look for a month name. -/
def month_from_question (question : String) : Option Month :=
  if has_sub (to_lowercase question) "august".toList then some Month.August
  else if has_sub (to_lowercase question) "september".toList then some Month.September
  else if has_sub (to_lowercase question) "october".toList then some Month.October
  else if has_sub (to_lowercase question) "november".toList then some Month.November
  else if has_sub (to_lowercase question) "december".toList then some Month.December
  else none

/-- ASCII `\s` character class of the regex crate. -/
def is_ws (c : Char) : Bool :=
  c == ' ' || c == '\t' || c == '\n' || c == '\r' || c == '\x0b' || c == '\x0c'

/-- ASCII `\w` character class of the regex crate. -/
def is_word_char (c : Char) : Bool :=
  c.isAlphanum || c == '_'

/-- Match `\s+` at the front of the input (at least one whitespace character,
then maximal munch), returning the rest.  Because `\s` and `\w` are disjoint
character classes, maximal munch is exactly what the regex engine commits to. -/
def drop_ws1 : List Char → Option (List Char)
  | [] => none
  | c :: rest => if is_ws c then some (rest.dropWhile is_ws) else none

/-- Match `\w+` at the front of the input, returning the rest. -/
def drop_word1 : List Char → Option (List Char)
  | [] => none
  | c :: rest => if is_word_char c then some (rest.dropWhile is_word_char) else none

/-- Match the capture group `(\d{1,2})` at the front of the input: one digit,
greedily extended by a second, returned as its numeric value (the subsequent
`str::parse::<u32>` in the source always succeeds on one or two digits). -/
def digits12 : List Char → Option Nat
  | [] => none
  | c :: rest =>
    if c.isDigit then
      match rest with
      | c2 :: _ =>
        if c2.isDigit then some ((c.toNat - 48) * 10 + (c2.toNat - 48))
        else some (c.toNat - 48)
      | [] => some (c.toNat - 48)
    else none

/-- Try to match the regex `on\s+\w+\s+(\d{1,2})` at the start of the input. -/
def match_on_at : List Char → Option Nat
  | 'o' :: 'n' :: rest =>
    (drop_ws1 rest).bind fun r1 =>
      (drop_word1 r1).bind fun r2 =>
        (drop_ws1 r2).bind digits12
  | _ => none

/-- Leftmost match of the regex over the whole input. -/
def scan_day : List Char → Option Nat
  | [] => none
  | c :: rest =>
    match match_on_at (c :: rest) with
    | some d => some d
    | none => scan_day rest

/-- `day_from_question` from `manifold_markets.rs`: first match of
`on\s+\w+\s+(\d{1,2})` in the question, parsed as a number. -/
def day_from_question (question : String) : Option Nat :=
  scan_day question.toList

/- ## manifold_markets.rs: incident types, markets, registry -/

/-- `enum IncidentType` from `manifold_markets.rs`. -/
inductive IncidentType where
  | Any
  | Red
deriving DecidableEq

/-- `impl FromStr for IncidentType` from `manifold_markets.rs`. -/
def from_str (s : String) : Except String IncidentType :=
  if s == "minor" then Except.ok IncidentType.Any
  else if s == "major" then Except.ok IncidentType.Any
  else if s == "critical" then Except.ok IncidentType.Red
  else Except.error ("unknown incident type: " ++ s)

def IBLUE_CREATOR_ID : String := "HBlWMFF8XkcatdnIfNt0RPoCrXy1"

def ALEXTES_CREATOR_ID : String := "fwGK5b9peFQbclczNeQdgCtjlYT2"

/-- `struct Market` from `manifold_markets.rs` (the fields the code reads). -/
structure Market where
  id : String
  creator_id : String
  question : String
deriving DecidableEq

/-- `Market::is_any_incident_market` from `manifold_markets.rs`. -/
def Market.is_any_incident_market (m : Market) : Bool :=
  (m.creator_id == IBLUE_CREATOR_ID || m.creator_id == ALEXTES_CREATOR_ID)
    && contains_sub m.question "Will GitHub have any incident"

/-- `Market.is_red_incident_market` from `manifold_markets.rs`. -/
def Market.is_red_incident_market (m : Market) : Bool :=
  (m.creator_id == IBLUE_CREATOR_ID || m.creator_id == ALEXTES_CREATOR_ID)
    && contains_sub m.question "Will GitHub have a red incident"

/-- The target descriptor the Updater builds and stores in the registry
(`TargetIndicident` as constructed in `update_targets`; the spec calls it
`TargetIncident`): contract id, trigger month and day, incident class. -/
structure TargetIncident where
  contract_id : String
  month : Nat
  day : Nat
  incident_type : IncidentType
deriving DecidableEq

/-- The registry `TargetMarkets(HashMap<String, TargetIndicident>)`, modelled as
an association list with unique keys maintained by insertion. -/
abbrev Registry := List (String × TargetIncident)

/-- `TargetMarkets::target_exists`. -/
def target_exists (reg : Registry) (contract_id : String) : Bool :=
  reg.any (fun p => p.1 == contract_id)

/-- `TargetMarkets::add_new_target` (`HashMap::insert`: the new binding replaces
any previous binding of the same key). -/
def add_new_target (reg : Registry) (t : TargetIncident) : Registry :=
  (t.contract_id, t) :: reg.filter (fun p => p.1 != t.contract_id)

/-- `TargetMarkets::clear_old_targets`: keep targets in future months, or
today-or-future days of the current month. -/
def clear_old_targets (today : Date) (reg : Registry) : Registry :=
  reg.filter fun p =>
    decide (today.month < p.2.month ∨ (p.2.month = today.month ∧ today.day ≤ p.2.day))

/-- Modelled from the spec: `TargetIndicident::is_past` is called by
`update_targets` but its definition is not among the source files under `src`;
spec section 4.2 describes the skipped targets as those whose date has already
passed, with "passed" meaning month strictly earlier than today's, or the same
month with a strictly earlier day. -/
def is_past (today : Date) (month day : Nat) : Bool :=
  decide (month < today.month ∨ (month = today.month ∧ day < today.day))

/-- Spec-side notion for the pruning claim: the entry's date is strictly before
today (month strictly earlier, or same month with day strictly earlier). -/
def strictly_before (t : TargetIncident) (today : Date) : Bool :=
  decide (t.month < today.month ∨ (t.month = today.month ∧ t.day < today.day))

/-- One market's processing inside the `update_targets` loop body: classify,
extract the date (a parse failure is the `expect` panic, modelled as an error
that ends the loop), skip past dates and known contracts, otherwise insert. -/
def processMarket (today : Date) (reg : Registry) (m : Market) : Except String Registry :=
  if m.is_any_incident_market then
    match day_from_question m.question with
    | none => Except.error "failed to parse day from question"
    | some d =>
      match month_from_question m.question with
      | none => Except.error "failed to parse month from question"
      | some mo =>
        if is_past today (u32_from_month mo) d then Except.ok reg
        else if target_exists reg m.id then Except.ok reg
        else Except.ok (add_new_target reg ⟨m.id, u32_from_month mo, d, IncidentType.Any⟩)
  else if m.is_red_incident_market then
    match day_from_question m.question with
    | none => Except.error "failed to parse day from question"
    | some d =>
      match month_from_question m.question with
      | none => Except.error "failed to parse month from question"
      | some mo =>
        if is_past today (u32_from_month mo) d then Except.ok reg
        else if target_exists reg m.id then Except.ok reg
        else Except.ok (add_new_target reg ⟨m.id, u32_from_month mo, d, IncidentType.Red⟩)
  else
    Except.ok reg

/-- The per-market loop of one `update_targets` cycle. -/
def runMarkets (today : Date) (reg : Registry) : List Market → Except String Registry
  | [] => Except.ok reg
  | m :: ms =>
    match processMarket today reg m with
    | Except.error e => Except.error e
    | Except.ok reg' => runMarkets today reg' ms

/-- One cycle of `update_targets` after the markets have been fetched: prune the
registry, then fold the listed markets through classification and insertion. -/
def update_targets_cycle (today : Date) (reg : Registry) (markets : List Market) :
    Except String Registry :=
  runMarkets today (clear_old_targets today reg) markets

/- ## github_status.rs / main.rs: the status poller with backoff -/

/-- `struct Status` from the sources: the fields decoded from the feed. -/
structure Status where
  description : String
  indicator : String
deriving DecidableEq

/-- `struct StatusEnvelope` from the sources. -/
structure StatusEnvelope where
  status : Status
deriving DecidableEq

/-- Outcome of one HTTP attempt against the status feed, as the environment
presents it to `get_incident_status`: the send itself can fail (transport
error), or a response arrives with a status code and a body that either decodes
to a `StatusEnvelope` or does not. -/
inductive AttemptOutcome where
  | sendFailure
  | response (statusCode : Nat) (decoded : Option StatusEnvelope)
deriving DecidableEq

/-- Classification the backoff combinator acts on: a successful value, a
permanent failure (returned immediately), or a transient failure (retried). -/
inductive AttemptClass where
  | success (v : StatusEnvelope)
  | permanent
  | transient
deriving DecidableEq

/-- `reqwest::Response::error_for_status` fails exactly on client and server
error codes (400–599). -/
def error_for_status (code : Nat) : Bool :=
  decide (400 ≤ code ∧ code ≤ 599)

/-- The closure `get_status_with_backoff` in `get_incident_status`: a transport
failure is `Error::Permanent`; an HTTP error status is `Error::Transient` when
it is 429 (`TOO_MANY_REQUESTS`) and `Error::Permanent` otherwise; a JSON decode
failure is `Error::Permanent`; otherwise the decoded envelope is returned. -/
def get_status_with_backoff : AttemptOutcome → AttemptClass
  | AttemptOutcome.sendFailure => AttemptClass.permanent
  | AttemptOutcome.response code decoded =>
    if error_for_status code then
      if code == 429 then AttemptClass.transient else AttemptClass.permanent
    else
      match decoded with
      | some v => AttemptClass.success v
      | none => AttemptClass.permanent

/-- `get_incident_status`, run against a finite prefix of the environment's
attempt outcomes: `backoff::future::retry` keeps retrying while attempts
classify as transient and returns the first success or permanent failure
(`none` means every supplied attempt was transient and retrying continues). -/
def get_incident_status : List AttemptOutcome → Option (Except Unit StatusEnvelope)
  | [] => none
  | a :: rest =>
    match get_status_with_backoff a with
    | AttemptClass.transient => get_incident_status rest
    | AttemptClass.permanent => some (Except.error ())
    | AttemptClass.success v => some (Except.ok v)

/- ## main.rs: targets, bet requests, the orchestrating loop -/

/-- `struct TargetIndicident` from `main.rs` (sic): a hardcoded target date with
an any-incident contract and a red-incident contract. -/
structure TargetIndicident where
  month : Nat
  day : Nat
  contract_id : String
  red_contract_id : String
deriving DecidableEq

/-- `TARGET_A` from `main.rs`. -/
def TARGET_A : TargetIndicident :=
  ⟨8, 29, "5kFCX8YfjxNCYTLXMzT9", "o2AilVT2jmmef8YIGkzC"⟩

/-- `TARGET_B` from `main.rs`. -/
def TARGET_B : TargetIndicident :=
  ⟨8, 30, "hsXruT9P074SyAgWUX1L", "vYSLqU2aGD6ZTdtUQUKY"⟩

/-- `TARGETS` from `main.rs`. -/
def TARGETS : List TargetIndicident := [TARGET_A, TARGET_B]

/-- A bet request as `bet_20_github_down` builds it: the JSON payload
`{amount, outcome, contractId}` of the POST to the betting venue. -/
structure BetReq where
  amount : Nat
  outcome : String
  contractId : String
deriving DecidableEq

/-- `bet_20_github_down` from `main.rs`: the request it sends (amount 80,
outcome YES) for a given contract id. -/
def bet_20_github_down (contract_id : String) : BetReq :=
  ⟨80, "YES", contract_id⟩

/-- The match test of the loop body in `main.rs` (line 166):
`today.month() == *month || today.day() == *day`. -/
def targetMatches (today : Date) (t : TargetIndicident) : Bool :=
  today.month == t.month || today.day == t.day

/-- The batch of bet requests the loop body pushes for a matched target: five
iterations, each pushing a red-contract bet when the indicator is `critical`
and always pushing an any-contract bet. -/
def dispatchBets (indicator : String) (t : TargetIndicident) : List BetReq :=
  ((List.range 5).map fun _ =>
    (if indicator == "critical" then [bet_20_github_down t.red_contract_id] else [])
      ++ [bet_20_github_down t.contract_id]).flatten

/-- `futures::future::try_join_all` on the batch's results: all requests awaited
as one unit, failing with the first failure. -/
def try_join_all : List (Except String Unit) → Except String (List Unit)
  | [] => Except.ok []
  | r :: rest =>
    match r with
    | Except.error e => Except.error e
    | Except.ok v =>
      match try_join_all rest with
      | Except.error e => Except.error e
      | Except.ok vs => Except.ok (v :: vs)

/-- Control state of the `main.rs` loop: still scanning, sleeping the
`u64::MAX`-second sleep after a successful dispatch, or terminated by the `?`
on a failed `try_join_all`. -/
inductive OrchState where
  | awake
  | sleepingForever
  | dead (e : String)
deriving DecidableEq

/-- Environment of one polling cycle: today's date, the polled indicator, and
the venue's response to each bet request. -/
structure CycleIn where
  today : Date
  indicator : String
  env : BetReq → Except String Unit

/-- One iteration of the `main.rs` loop.  An indicator of `none` short-circuits
with no action; otherwise the first target whose date test passes gets the
five-fold bet batch: on success the loop enters the `u64::MAX` sleep, and on a
batch failure the error propagates and the process is dead. -/
def orch_step (st : OrchState) (today : Date) (indicator : String)
    (env : BetReq → Except String Unit) : OrchState × List BetReq :=
  match st with
  | OrchState.sleepingForever => (OrchState.sleepingForever, [])
  | OrchState.dead e => (OrchState.dead e, [])
  | OrchState.awake =>
    if indicator == "none" then (OrchState.awake, [])
    else
      match TARGETS.find? (fun t => targetMatches today t) with
      | none => (OrchState.awake, [])
      | some t =>
        let reqs := dispatchBets indicator t
        match try_join_all (reqs.map env) with
        | Except.ok _ => (OrchState.sleepingForever, reqs)
        | Except.error e => (OrchState.dead e, reqs)

/-- The loop run over a finite sequence of cycle environments, collecting the
bet requests dispatched in each cycle. -/
def orch_run : OrchState → List CycleIn → OrchState × List (List BetReq)
  | st, [] => (st, [])
  | st, i :: is =>
    let so := orch_step st i.today i.indicator i.env
    let rest := orch_run so.1 is
    (rest.1, so.2 :: rest.2)

/-- Modelled from the spec: the `DateExclusionCalendar` and the Orchestrator's
exclusion check (spec section 4.3 step 1) are not among the source files under
`src`; per the spec, when today's `(month, day)` is in the calendar the cycle
sleeps a long cool-down and restarts without polling status.  The middle
component records whether the status feed was polled this cycle. -/
def orch_step_with_exclusion (calendar : List (Nat × Nat)) (st : OrchState)
    (today : Date) (indicator : String) (env : BetReq → Except String Unit) :
    OrchState × Bool × List BetReq :=
  if calendar.contains (today.month, today.day) then
    (st, false, [])
  else
    let so := orch_step st today indicator env
    (so.1, true, so.2)

/-!
## Theorems on the claims
-/

/-- C1.  The claim says the loop dispatches bets for a target exactly when
today's month equals the target's month, today's day equals the target's day,
and the incident type matches.  The code's test (`main.rs` line 166) is
`today.month() == *month || today.day() == *day`: on August 1, with a `minor`
indicator, the month alone matches `TARGET_A` (dated August 29) and the loop
dispatches five bets on its any-incident contract even though the days differ. -/
theorem c1_dispatches_on_month_alone :
    (Date.mk 8 1).day ≠ TARGET_A.day
    ∧ (orch_step OrchState.awake ⟨8, 1⟩ "minor" (fun _ => Except.ok ())).2
        = List.replicate 5 (bet_20_github_down TARGET_A.contract_id)
    ∧ (orch_step OrchState.awake ⟨8, 1⟩ "minor" (fun _ => Except.ok ())).2 ≠ [] :=
  ⟨by decide, rfl, by decide⟩

/-- C2.  Classifying a status indicator: `none` short-circuits the cycle with
no action, `minor` and `major` map to `IncidentType::Any`, `critical` maps to
`IncidentType::Red`, and every other string is an error. -/
theorem c2_indicator_classification :
    from_str "minor" = Except.ok IncidentType.Any
    ∧ from_str "major" = Except.ok IncidentType.Any
    ∧ from_str "critical" = Except.ok IncidentType.Red
    ∧ (∀ s : String, s ≠ "minor" → s ≠ "major" → s ≠ "critical" →
        from_str s = Except.error ("unknown incident type: " ++ s))
    ∧ (∀ (today : Date) (env : BetReq → Except String Unit),
        orch_step OrchState.awake today "none" env = (OrchState.awake, [])) := by
  refine ⟨rfl, rfl, rfl, ?_, ?_⟩
  · intro s h1 h2 h3
    unfold from_str
    rw [if_neg (by simp [h1]), if_neg (by simp [h2]), if_neg (by simp [h3])]
  · intro today env
    rfl

/-- Witness for C2 at the concrete indicator `foo` and a concrete cycle. -/
theorem c2_indicator_classification_witness :
    from_str "foo" = Except.error ("unknown incident type: foo")
    ∧ orch_step OrchState.awake ⟨1, 1⟩ "none" (fun _ => Except.ok ())
        = (OrchState.awake, []) :=
  ⟨c2_indicator_classification.2.2.2.1 "foo" (by decide) (by decide) (by decide),
   c2_indicator_classification.2.2.2.2 ⟨1, 1⟩ (fun _ => Except.ok ())⟩

/-- C3.  Once a cycle's bet dispatch has succeeded the loop is in the
`u64::MAX`-second sleep, and no subsequent cycle in the same process lifetime
dispatches any bet for any contract, whatever the later dates and indicators. -/
theorem c3_no_rebetting_after_success :
    ∀ (today : Date) (ind : String) (env : BetReq → Except String Unit)
      (inputs : List CycleIn),
      (orch_step OrchState.awake today ind env).1 = OrchState.sleepingForever →
      orch_run (orch_step OrchState.awake today ind env).1 inputs
        = (OrchState.sleepingForever, inputs.map fun _ => []) := by
  intro today ind env inputs h
  rw [h]
  clear h
  induction inputs with
  | nil => rfl
  | cons i is ih => simp [orch_run, orch_step, ih]

/-- Witness for C3: a successful `minor` dispatch on August 29, followed by a
matching `critical` cycle that dispatches nothing. -/
theorem c3_no_rebetting_after_success_witness :
    orch_run (orch_step OrchState.awake ⟨8, 29⟩ "minor" (fun _ => Except.ok ())).1
        [⟨⟨8, 29⟩, "critical", fun _ => Except.ok ()⟩]
      = (OrchState.sleepingForever, [[]]) :=
  c3_no_rebetting_after_success ⟨8, 29⟩ "minor" (fun _ => Except.ok ())
    [⟨⟨8, 29⟩, "critical", fun _ => Except.ok ()⟩] rfl

/-- C8.  On a cycle whose calendar date is in the exclusion calendar the
Orchestrator performs no status poll and dispatches no bets, and its state is
unchanged. -/
theorem c8_exclusion_calendar_blocks_cycle :
    ∀ (calendar : List (Nat × Nat)) (st : OrchState) (today : Date)
      (ind : String) (env : BetReq → Except String Unit),
      calendar.contains (today.month, today.day) = true →
      orch_step_with_exclusion calendar st today ind env = (st, false, []) := by
  intro calendar st today ind env h
  unfold orch_step_with_exclusion
  rw [if_pos h]

/-- Witness for C8: December 25 in a one-entry exclusion calendar. -/
theorem c8_exclusion_calendar_blocks_cycle_witness :
    orch_step_with_exclusion [(12, 25)] OrchState.awake ⟨12, 25⟩ "critical"
        (fun _ => Except.ok ())
      = (OrchState.awake, false, []) :=
  c8_exclusion_calendar_blocks_cycle [(12, 25)] OrchState.awake ⟨12, 25⟩ "critical"
    (fun _ => Except.ok ()) (by decide)

/-- C6.  The status poller retries exactly on HTTP 429: an attempt classifies
as transient precisely when its response status is 429, a 429 is consumed by
the retry loop, and a transport failure, any other error status, or a decode
failure is permanent and returned immediately. -/
theorem c6_retry_exactly_on_429 :
    (∀ a : AttemptOutcome,
        get_status_with_backoff a = AttemptClass.transient
          ↔ ∃ d, a = AttemptOutcome.response 429 d)
    ∧ (∀ (d : Option StatusEnvelope) (rest : List AttemptOutcome),
        get_incident_status (AttemptOutcome.response 429 d :: rest)
          = get_incident_status rest)
    ∧ (∀ rest : List AttemptOutcome,
        get_incident_status (AttemptOutcome.sendFailure :: rest)
          = some (Except.error ()))
    ∧ (∀ (code : Nat) (d : Option StatusEnvelope) (rest : List AttemptOutcome),
        error_for_status code = true → code ≠ 429 →
        get_incident_status (AttemptOutcome.response code d :: rest)
          = some (Except.error ()))
    ∧ (∀ (code : Nat) (rest : List AttemptOutcome),
        error_for_status code = false →
        get_incident_status (AttemptOutcome.response code none :: rest)
          = some (Except.error ())) := by
  refine ⟨?_, ?_, ?_, ?_, ?_⟩
  · intro a
    constructor
    · intro h
      cases a with
      | sendFailure => simp [get_status_with_backoff] at h
      | response code d =>
        refine ⟨d, ?_⟩
        simp only [get_status_with_backoff] at h
        by_cases h400 : error_for_status code = true
        · rw [if_pos h400] at h
          by_cases h429 : (code == 429) = true
          · have : code = 429 := by simpa using h429
            subst this
            rfl
          · rw [if_neg h429] at h
            exact absurd h (by simp)
        · rw [if_neg h400] at h
          cases d <;> simp at h
    · rintro ⟨d, rfl⟩
      rfl
  · intro d rest
    rfl
  · intro rest
    rfl
  · intro code d rest h1 h2
    have hc : get_status_with_backoff (AttemptOutcome.response code d)
        = AttemptClass.permanent := by
      simp only [get_status_with_backoff]
      rw [if_pos h1, if_neg (by simp [h2])]
    simp [get_incident_status, hc]
  · intro code rest h
    have hc : get_status_with_backoff (AttemptOutcome.response code none)
        = AttemptClass.permanent := by
      simp only [get_status_with_backoff]
      rw [if_neg (by simp [h])]
    simp [get_incident_status, hc]

/-- Witness for C6: a 429 followed by a transport failure retries once and then
fails permanently; a 500 and an undecodable 200 fail permanently at once. -/
theorem c6_retry_exactly_on_429_witness :
    get_status_with_backoff (AttemptOutcome.response 429 none) = AttemptClass.transient
    ∧ get_incident_status [AttemptOutcome.response 429 none, AttemptOutcome.sendFailure]
        = some (Except.error ())
    ∧ get_incident_status [AttemptOutcome.response 500 none] = some (Except.error ())
    ∧ get_incident_status [AttemptOutcome.response 200 none] = some (Except.error ()) :=
  ⟨(c6_retry_exactly_on_429.1 (AttemptOutcome.response 429 none)).mpr ⟨none, rfl⟩,
   by rw [c6_retry_exactly_on_429.2.1 none [AttemptOutcome.sendFailure]]
      exact c6_retry_exactly_on_429.2.2.1 [],
   c6_retry_exactly_on_429.2.2.2.1 500 none [] (by decide) (by decide),
   c6_retry_exactly_on_429.2.2.2.2 200 [] (by decide)⟩

/-- C7.  All bet requests of one cycle are awaited as one unit; a single failed
request fails the whole batch with that error, the loop terminates in the dead
state carrying that error, and a dead loop dispatches nothing ever after (no
retry, no rollback). -/
theorem c7_batch_failure_is_fatal :
    (∀ results : List (Except String Unit),
        (∃ e, Except.error e ∈ results) →
        ∃ e, try_join_all results = Except.error e ∧ Except.error e ∈ results)
    ∧ (∀ (today : Date) (ind : String) (env : BetReq → Except String Unit)
         (t : TargetIndicident) (e : String),
        ind ≠ "none" →
        TARGETS.find? (fun t' => targetMatches today t') = some t →
        try_join_all ((dispatchBets ind t).map env) = Except.error e →
        orch_step OrchState.awake today ind env = (OrchState.dead e, dispatchBets ind t))
    ∧ (∀ (e : String) (inputs : List CycleIn),
        orch_run (OrchState.dead e) inputs = (OrchState.dead e, inputs.map fun _ => [])) := by
  refine ⟨?_, ?_, ?_⟩
  · intro results
    induction results with
    | nil =>
      rintro ⟨e, he⟩
      simp at he
    | cons r rest ih =>
      rintro ⟨e, he⟩
      cases r with
      | error e0 => exact ⟨e0, rfl, List.mem_cons_self _ _⟩
      | ok v =>
        have hrest : ∃ e', Except.error e' ∈ rest := by
          rcases List.mem_cons.mp he with h | h
          · exact absurd h (by simp)
          · exact ⟨e, h⟩
        obtain ⟨e', h1, h2⟩ := ih hrest
        refine ⟨e', ?_, List.mem_cons_of_mem _ h2⟩
        simp [try_join_all, h1]
  · intro today ind env t e h1 h2 h3
    unfold orch_step
    rw [if_neg (by simp [h1]), h2]
    simp [h3]
  · intro e inputs
    induction inputs with
    | nil => rfl
    | cons i is ih => simp [orch_run, orch_step, ih]

/-- Witness for C7: a one-element failing batch, a concrete failing cycle on
August 29, and a dead loop run over one further cycle. -/
theorem c7_batch_failure_is_fatal_witness :
    (∃ e, try_join_all [(Except.error "boom" : Except String Unit)] = Except.error e
        ∧ (Except.error e : Except String Unit)
            ∈ [(Except.error "boom" : Except String Unit)])
    ∧ orch_step OrchState.awake ⟨8, 29⟩ "minor" (fun _ => Except.error "boom")
        = (OrchState.dead "boom", dispatchBets "minor" TARGET_A)
    ∧ orch_run (OrchState.dead "boom") [⟨⟨8, 29⟩, "minor", fun _ => Except.ok ()⟩]
        = (OrchState.dead "boom", [[]]) :=
  ⟨c7_batch_failure_is_fatal.1 [(Except.error "boom" : Except String Unit)]
     ⟨"boom", by simp⟩,
   c7_batch_failure_is_fatal.2.1 ⟨8, 29⟩ "minor" (fun _ => Except.error "boom")
     TARGET_A "boom" (by decide) rfl rfl,
   c7_batch_failure_is_fatal.2.2 "boom" [⟨⟨8, 29⟩, "minor", fun _ => Except.ok ()⟩]⟩

/-- C10.  Every dispatched wager carries amount 80 and outcome YES; a matched
target gets, per cycle, five red-contract and five any-contract wagers when the
indicator is `critical`, and exactly five any-contract wagers otherwise. -/
theorem c10_bet_batch_shape :
    ∀ (ind : String) (t : TargetIndicident),
      (∀ r ∈ dispatchBets ind t, r.amount = 80 ∧ r.outcome = "YES")
      ∧ (ind = "critical" →
          dispatchBets ind t =
            [bet_20_github_down t.red_contract_id, bet_20_github_down t.contract_id,
             bet_20_github_down t.red_contract_id, bet_20_github_down t.contract_id,
             bet_20_github_down t.red_contract_id, bet_20_github_down t.contract_id,
             bet_20_github_down t.red_contract_id, bet_20_github_down t.contract_id,
             bet_20_github_down t.red_contract_id, bet_20_github_down t.contract_id])
      ∧ (ind ≠ "critical" →
          dispatchBets ind t = List.replicate 5 (bet_20_github_down t.contract_id)) := by
  intro ind t
  refine ⟨?_, ?_, ?_⟩
  · intro r hr
    simp only [dispatchBets, List.mem_flatten, List.mem_map] at hr
    obtain ⟨l, ⟨i, hi, rfl⟩, hrl⟩ := hr
    rcases List.mem_append.mp hrl with h | h
    · split at h
      · simp at h
        subst h
        exact ⟨rfl, rfl⟩
      · simp at h
    · simp at h
      subst h
      exact ⟨rfl, rfl⟩
  · intro h
    subst h
    rfl
  · intro h
    have hb : (ind == "critical") = false := beq_eq_false_iff_ne.mpr h
    simp only [dispatchBets, hb]
    rfl

/-- Witness for C10: the critical and minor batches for `TARGET_A`, and the
shape of one of its wagers. -/
theorem c10_bet_batch_shape_witness :
    ((bet_20_github_down TARGET_A.contract_id).amount = 80
      ∧ (bet_20_github_down TARGET_A.contract_id).outcome = "YES")
    ∧ dispatchBets "critical" TARGET_A =
        [bet_20_github_down TARGET_A.red_contract_id, bet_20_github_down TARGET_A.contract_id,
         bet_20_github_down TARGET_A.red_contract_id, bet_20_github_down TARGET_A.contract_id,
         bet_20_github_down TARGET_A.red_contract_id, bet_20_github_down TARGET_A.contract_id,
         bet_20_github_down TARGET_A.red_contract_id, bet_20_github_down TARGET_A.contract_id,
         bet_20_github_down TARGET_A.red_contract_id, bet_20_github_down TARGET_A.contract_id]
    ∧ dispatchBets "minor" TARGET_A
        = List.replicate 5 (bet_20_github_down TARGET_A.contract_id) :=
  ⟨(c10_bet_batch_shape "minor" TARGET_A).1 (bet_20_github_down TARGET_A.contract_id)
      (by decide),
   (c10_bet_batch_shape "critical" TARGET_A).2.1 rfl,
   (c10_bet_batch_shape "minor" TARGET_A).2.2 (by decide)⟩

/-- Inversion on a successful `processMarket` step: either the registry is
unchanged, or the market classified, parsed, was not past, was not yet present,
and was inserted. -/
lemma processMarket_inv (today : Date) (reg : Registry) (m : Market) (reg' : Registry)
    (h : processMarket today reg m = Except.ok reg') :
    reg' = reg ∨
    ((m.is_any_incident_market = true ∨ m.is_red_incident_market = true)
      ∧ ∃ mo d ty, month_from_question m.question = some mo
        ∧ day_from_question m.question = some d
        ∧ is_past today (u32_from_month mo) d = false
        ∧ target_exists reg m.id = false
        ∧ reg' = add_new_target reg ⟨m.id, u32_from_month mo, d, ty⟩) := by
  unfold processMarket at h
  split at h
  · next hA =>
    split at h
    · exact absurd h (by simp)
    · next d hd =>
      split at h
      · exact absurd h (by simp)
      · next mo hm =>
        split at h
        · left
          injection h with h
          exact h.symm
        · next hpast =>
          split at h
          · left
            injection h with h
            exact h.symm
          · next hex =>
            right
            injection h with h
            refine ⟨Or.inl hA, mo, d, IncidentType.Any, hm, hd, ?_, ?_, h.symm⟩
            · exact Bool.eq_false_iff.mpr hpast
            · exact Bool.eq_false_iff.mpr hex
  · split at h
    · next hR =>
      split at h
      · exact absurd h (by simp)
      · next d hd =>
        split at h
        · exact absurd h (by simp)
        · next mo hm =>
          split at h
          · left
            injection h with h
            exact h.symm
          · next hpast =>
            split at h
            · left
              injection h with h
              exact h.symm
            · next hex =>
              right
              injection h with h
              refine ⟨Or.inr hR, mo, d, IncidentType.Red, hm, hd, ?_, ?_, h.symm⟩
              · exact Bool.eq_false_iff.mpr hpast
              · exact Bool.eq_false_iff.mpr hex
    · left
      injection h with h
      exact h.symm

/-- Evaluation of `processMarket` on an any-incident market that parses, is not
past, and is not yet registered. -/
lemma processMarket_eval_any (today : Date) (reg : Registry) (m : Market)
    (d : Nat) (mo : Month)
    (hA : m.is_any_incident_market = true)
    (hd : day_from_question m.question = some d)
    (hm : month_from_question m.question = some mo)
    (hpast : is_past today (u32_from_month mo) d = false)
    (hex : target_exists reg m.id = false) :
    processMarket today reg m
      = Except.ok (add_new_target reg ⟨m.id, u32_from_month mo, d, IncidentType.Any⟩) := by
  simp [processMarket, hA, hd, hm, hpast, hex]

/-- Evaluation of `processMarket` on a red-incident market (with the
any-incident test false, since the code checks it first) that parses, is not
past, and is not yet registered. -/
lemma processMarket_eval_red (today : Date) (reg : Registry) (m : Market)
    (d : Nat) (mo : Month)
    (hA : m.is_any_incident_market = false)
    (hR : m.is_red_incident_market = true)
    (hd : day_from_question m.question = some d)
    (hm : month_from_question m.question = some mo)
    (hpast : is_past today (u32_from_month mo) d = false)
    (hex : target_exists reg m.id = false) :
    processMarket today reg m
      = Except.ok (add_new_target reg ⟨m.id, u32_from_month mo, d, IncidentType.Red⟩) := by
  simp [processMarket, hA, hR, hd, hm, hpast, hex]

/-- A registry of only today-or-future dates stays that way through one
market's processing. -/
lemma processMarket_ok_current (today : Date) (reg : Registry) (m : Market)
    (reg' : Registry)
    (hreg : ∀ p ∈ reg, strictly_before p.2 today = false)
    (h : processMarket today reg m = Except.ok reg') :
    ∀ p ∈ reg', strictly_before p.2 today = false := by
  rcases processMarket_inv today reg m reg' h with rfl | ⟨_, mo, d, ty, _, _, hpast, _, rfl⟩
  · exact hreg
  · intro p hp
    rcases List.mem_cons.mp hp with rfl | hp'
    · exact hpast
    · exact hreg p (List.mem_filter.mp hp').1

/-- The per-market loop keeps every entry's date today-or-future. -/
lemma runMarkets_current (today : Date) :
    ∀ (ms : List Market) (reg reg' : Registry),
      (∀ p ∈ reg, strictly_before p.2 today = false) →
      runMarkets today reg ms = Except.ok reg' →
      ∀ p ∈ reg', strictly_before p.2 today = false := by
  intro ms
  induction ms with
  | nil =>
    intro reg reg' hreg h
    injection h with h
    subst h
    exact hreg
  | cons m ms ih =>
    intro reg reg' hreg h
    unfold runMarkets at h
    cases hpm : processMarket today reg m with
    | error e =>
      rw [hpm] at h
      exact Except.noConfusion h
    | ok reg'' =>
      rw [hpm] at h
      exact ih reg'' reg' (processMarket_ok_current today reg m reg'' hreg hpm) h

/-- C4.  A prune cycle retains exactly the entries whose `(month, day)` is not
strictly before today's, and a full Updater cycle — prune, then insertions
which skip past dates — leaves every registry entry dated today or later. -/
theorem c4_prune_exact_and_invariant :
    ∀ (today : Date) (reg : Registry),
      (∀ p : String × TargetIncident,
          p ∈ clear_old_targets today reg ↔ p ∈ reg ∧ strictly_before p.2 today = false)
      ∧ (∀ (markets : List Market) (reg' : Registry),
          update_targets_cycle today reg markets = Except.ok reg' →
          ∀ p ∈ reg', strictly_before p.2 today = false) := by
  intro today reg
  have hclear : ∀ p : String × TargetIncident,
      p ∈ clear_old_targets today reg ↔ p ∈ reg ∧ strictly_before p.2 today = false := by
    intro p
    simp only [clear_old_targets, List.mem_filter, strictly_before,
      decide_eq_true_eq, decide_eq_false_iff_not]
    constructor
    · rintro ⟨h1, h2⟩
      exact ⟨h1, by omega⟩
    · rintro ⟨h1, h2⟩
      exact ⟨h1, by omega⟩
  refine ⟨hclear, ?_⟩
  intro markets reg' h
  refine runMarkets_current today markets (clear_old_targets today reg) reg' ?_ h
  intro p hp
  exact ((hclear p).mp hp).2

/-- Witness for C4: the August 29 entry is pruned on August 30 (it is in the
prune characterization with a strictly-before date), and after a cycle that
inserts an August 31 market the surviving entry is not strictly before. -/
theorem c4_prune_exact_and_invariant_witness :
    ((("old", (⟨"old", 8, 29, IncidentType.Any⟩ : TargetIncident))
        ∈ clear_old_targets ⟨8, 30⟩ [("old", ⟨"old", 8, 29, IncidentType.Any⟩)])
      ↔ ((("old", (⟨"old", 8, 29, IncidentType.Any⟩ : TargetIncident))
            ∈ ([(("old" : String), (⟨"old", 8, 29, IncidentType.Any⟩ : TargetIncident))] :
                Registry))
          ∧ strictly_before ⟨"old", 8, 29, IncidentType.Any⟩ ⟨8, 30⟩ = false))
    ∧ strictly_before ⟨"m1", 8, 31, IncidentType.Any⟩ ⟨8, 30⟩ = false :=
  ⟨(c4_prune_exact_and_invariant ⟨8, 30⟩ [("old", ⟨"old", 8, 29, IncidentType.Any⟩)]).1
      ("old", ⟨"old", 8, 29, IncidentType.Any⟩),
   (c4_prune_exact_and_invariant ⟨8, 30⟩ [("old", ⟨"old", 8, 29, IncidentType.Any⟩)]).2
     [⟨"m1", IBLUE_CREATOR_ID, "Will GitHub have any incident on August 31"⟩]
     [("m1", ⟨"m1", 8, 31, IncidentType.Any⟩)] rfl ("m1", ⟨"m1", 8, 31, IncidentType.Any⟩)
     (by simp)⟩

/-- C5.  One market's processing inserts a new target into the registry if and
only if its creator is one of the two trusted author ids, its question contains
the any-incident or red-incident phrasing, its extracted date exists and has
not already passed, and its contract id is not already registered. -/
theorem c5_insert_iff :
    ∀ (today : Date) (reg : Registry) (m : Market) (reg' : Registry),
      processMarket today reg m = Except.ok reg' →
      ((target_exists reg' m.id = true ∧ target_exists reg m.id = false)
        ↔ ((m.creator_id == IBLUE_CREATOR_ID || m.creator_id == ALEXTES_CREATOR_ID) = true
          ∧ (contains_sub m.question "Will GitHub have any incident"
              || contains_sub m.question "Will GitHub have a red incident") = true
          ∧ (∃ mo d, month_from_question m.question = some mo
              ∧ day_from_question m.question = some d
              ∧ is_past today (u32_from_month mo) d = false)
          ∧ target_exists reg m.id = false)) := by
  intro today reg m reg' h
  constructor
  · rintro ⟨h1, h2⟩
    rcases processMarket_inv today reg m reg' h with rfl | ⟨hcls, mo, d, ty, hm, hd, hpast, hex, rfl⟩
    · exact absurd h1 (by simp [h2])
    · have htp : (m.creator_id == IBLUE_CREATOR_ID || m.creator_id == ALEXTES_CREATOR_ID) = true
          ∧ (contains_sub m.question "Will GitHub have any incident"
              || contains_sub m.question "Will GitHub have a red incident") = true := by
        rcases hcls with hA | hR
        · have h2 := hA
          unfold Market.is_any_incident_market at h2
          rw [Bool.and_eq_true] at h2
          exact ⟨h2.1, by simp [h2.2]⟩
        · have h2 := hR
          unfold Market.is_red_incident_market at h2
          rw [Bool.and_eq_true] at h2
          exact ⟨h2.1, by simp [h2.2]⟩
      exact ⟨htp.1, htp.2, ⟨mo, d, hm, hd, hpast⟩, hex⟩
  · rintro ⟨hT, hP, ⟨mo, d, hm, hd, hpast⟩, hex⟩
    refine ⟨?_, hex⟩
    by_cases hA : m.is_any_incident_market = true
    · have heval := processMarket_eval_any today reg m d mo hA hd hm hpast hex
      rw [heval] at h
      injection h with h
      subst h
      simp [target_exists, add_new_target]
    · have hAf : m.is_any_incident_market = false := Bool.eq_false_iff.mpr hA
      have hR : m.is_red_incident_market = true := by
        have hP' := hP
        rw [Bool.or_eq_true] at hP'
        rcases hP' with hc | hc
        · exact absurd (by simp [Market.is_any_incident_market, hT, hc] :
            m.is_any_incident_market = true) hA
        · simp [Market.is_red_incident_market, hT, hc]
      have heval := processMarket_eval_red today reg m d mo hAf hR hd hm hpast hex
      rw [heval] at h
      injection h with h
      subst h
      simp [target_exists, add_new_target]

/-- Witness for C5: a trusted any-incident market dated August 31 is inserted
into an empty registry on August 30. -/
theorem c5_insert_iff_witness :
    target_exists [("m1", ⟨"m1", 8, 31, IncidentType.Any⟩)] "m1" = true
    ∧ target_exists [] "m1" = false :=
  (c5_insert_iff ⟨8, 30⟩ []
      ⟨"m1", IBLUE_CREATOR_ID, "Will GitHub have any incident on August 31"⟩
      [("m1", ⟨"m1", 8, 31, IncidentType.Any⟩)] rfl).mpr
    ⟨by decide, by decide,
     ⟨Month.August, 31, by decide, by decide, by decide⟩, by decide⟩

/-- A classified market with an unparseable month or day makes `processMarket`
fail (the `expect` panic in the source). -/
lemma processMarket_parse_err (today : Date) (reg : Registry) (m : Market)
    (hcls : m.is_any_incident_market = true ∨ m.is_red_incident_market = true)
    (hparse : month_from_question m.question = none ∨ day_from_question m.question = none) :
    ∃ e, processMarket today reg m = Except.error e := by
  by_cases hA : m.is_any_incident_market = true
  · cases hd : day_from_question m.question with
    | none => exact ⟨"failed to parse day from question", by simp [processMarket, hA, hd]⟩
    | some d =>
      have hm : month_from_question m.question = none := by
        rcases hparse with h | h
        · exact h
        · rw [hd] at h
          exact absurd h (by simp)
      exact ⟨"failed to parse month from question", by simp [processMarket, hA, hd, hm]⟩
  · have hAf : m.is_any_incident_market = false := Bool.eq_false_iff.mpr hA
    have hR : m.is_red_incident_market = true := by
      rcases hcls with h | h
      · exact absurd h hA
      · exact h
    cases hd : day_from_question m.question with
    | none => exact ⟨"failed to parse day from question", by simp [processMarket, hAf, hR, hd]⟩
    | some d =>
      have hm : month_from_question m.question = none := by
        rcases hparse with h | h
        · exact h
        · rw [hd] at h
          exact absurd h (by simp)
      exact ⟨"failed to parse month from question",
        by simp [processMarket, hAf, hR, hd, hm]⟩

/-- The per-market loop fails as soon as it reaches a classified market with an
unparseable date. -/
lemma runMarkets_parse_err (today : Date) :
    ∀ (ms : List Market) (reg : Registry) (m : Market),
      m ∈ ms →
      (m.is_any_incident_market = true ∨ m.is_red_incident_market = true) →
      (month_from_question m.question = none ∨ day_from_question m.question = none) →
      ∃ e, runMarkets today reg ms = Except.error e := by
  intro ms
  induction ms with
  | nil =>
    intro reg m hm
    simp at hm
  | cons m0 ms ih =>
    intro reg m hm hcls hparse
    rcases List.mem_cons.mp hm with rfl | hmem
    · obtain ⟨e, he⟩ := processMarket_parse_err today reg m hcls hparse
      refine ⟨e, ?_⟩
      unfold runMarkets
      rw [he]
    · cases hpm : processMarket today reg m0 with
      | error e =>
        refine ⟨e, ?_⟩
        unfold runMarkets
        rw [hpm]
      | ok reg'' =>
        obtain ⟨e, he⟩ := ih reg'' m hmem hcls hparse
        refine ⟨e, ?_⟩
        unfold runMarkets
        rw [hpm]
        exact he

/-- C9.  If any listed market classifies as an incident target but yields no
extractable month or day, the whole Updater cycle fails (the loop terminates
with an error rather than skipping the market). -/
theorem c9_parse_failure_fatal :
    ∀ (today : Date) (reg : Registry) (markets : List Market) (m : Market),
      m ∈ markets →
      (m.is_any_incident_market = true ∨ m.is_red_incident_market = true) →
      (month_from_question m.question = none ∨ day_from_question m.question = none) →
      ∃ e, update_targets_cycle today reg markets = Except.error e := by
  intro today reg markets m hm hcls hparse
  exact runMarkets_parse_err today markets (clear_old_targets today reg) m hm hcls hparse

/-- Witness for C9: a trusted any-incident market with no date in its question
makes the cycle fail. -/
theorem c9_parse_failure_fatal_witness :
    ∃ e, update_targets_cycle ⟨8, 30⟩ []
        [⟨"m1", IBLUE_CREATOR_ID, "Will GitHub have any incident?"⟩]
      = Except.error e :=
  c9_parse_failure_fatal ⟨8, 30⟩ []
    [⟨"m1", IBLUE_CREATOR_ID, "Will GitHub have any incident?"⟩]
    ⟨"m1", IBLUE_CREATOR_ID, "Will GitHub have any incident?"⟩
    (by simp) (Or.inl (by decide)) (Or.inl (by decide))
